import Mathlib

/-!
Verification of the report cache/merge module (`src/lib/impact-reports.ts`)
of the voicedeck-app repository.

The module keeps a process-wide in-memory list of merged `Report` records,
populated lazily by `fetchReports` from three remote collaborators (the
hypercert claim indexer, the IPFS metadata store and the Directus CMS),
and exposes accessors (`fetchReportBySlug`, `getReports`) plus an in-place
funding-amount mutation (`updateFundedAmount`).

Shallow embedding choices:
* The remote collaborators, together with the `HC_OWNER_ADDRESS`
  environment variable, form a `World` record of pure functions; each
  fallible collaborator returns `Except String`, the `String` being the
  message of the JavaScript error it would throw.
* The module-level mutable `reports` variable becomes an explicit
  `Option (List Report)` value threaded through the functions; `none`
  models the initial `null`.
* Thrown JavaScript errors become the inductive `JsError`; every
  `catch`/re-`throw` wrapping site in the source becomes a
  `JsError.wrapped` constructor carrying the message prefix of the
  `new Error` it builds.
* The number of calls made to each remote collaborator is counted in a
  `Calls` record, so that statements such as "no remote collaborator is
  invoked" are expressible.
* `Promise.all` over the per-claim builders is modelled sequentially,
  left to right; on failure the leftmost error is surfaced (in JavaScript
  the surfaced rejection is the first to settle in time, which is not
  observable in a deterministic embedding) and every claim's collaborator
  calls are still counted, since `Promise.all` does not cancel the other
  promises.
* JavaScript `Number(...)` applied to the CMS `total_cost` string is
  modelled by `jsNumber`, which parses nonnegative decimal integer
  strings; `none` models `NaN`.
-/

/-- Claim record as consumed by the module: only `id` and `uri` are read
(`claim.id`, `claim.uri as string`). -/
structure Claim where
  id : String
  uri : String
deriving DecidableEq, Repr

/-- One entry of the metadata `properties` array; the module reads only
its `value` field (line 67). -/
structure MetadataProperty where
  value : String
deriving DecidableEq, Repr

/-- A `{ value?, display_value? }` field of the nested `hypercert` object,
as read by the module: `work_scope.value?.[0]`, `contributors.value?`,
and `display_value` of the timeframe/scope fields. -/
structure ScopeValue where
  value : Option (List String)
  display_value : Option String
deriving DecidableEq, Repr

/-- The nested `metadata.hypercert` object, fields as read on
lines 68-74 of the source. -/
structure HypercertData where
  work_scope : ScopeValue
  work_timeframe : ScopeValue
  impact_scope : ScopeValue
  impact_timeframe : ScopeValue
  contributors : ScopeValue
deriving DecidableEq, Repr

/-- Hypercert metadata document resolved from a claim URI; fields as
consumed by the merge (lines 61-74). `extUrl` embeds the source's
`external_url` field (renamed only in spelling). -/
structure HypercertMetadata where
  name : String
  description : String
  image : String
  extUrl : Option String
  properties : Option (List MetadataProperty)
  hypercert : Option HypercertData
deriving DecidableEq, Repr

/-- Modelled from the spec: the editorial (CMS) record shape. The file
`src/lib/directus.ts` and the `CMSReport` type are not under `src/`; the
field list follows spec section 3 and the field reads on lines 77-88 of
`impact-reports.ts`. `bcRatioVal` embeds the source's `bc_ratio` field
(renamed only in spelling). Fields the module copies verbatim are kept
as strings. -/
structure CMSReport where
  id : String
  title : String
  status : String
  date_created : String
  slug : String
  story : String
  bcRatioVal : String
  villages_impacted : String
  people_impacted : String
  verified_by : String
  date_updated : String
  byline : String
  total_cost : String
deriving DecidableEq, Repr

/-- The merged, cached entity (lines 60-90 of the source). `totalCost`
is `Number(cmsReport.total_cost)` with `none` modelling `NaN`;
`fundedSoFar` is the mutable accumulated funding amount. -/
structure Report where
  hypercertId : String
  title : String
  summary : String
  image : String
  originalReportUrl : Option String
  state : Option String
  category : Option String
  workTimeframe : Option String
  impactScope : Option String
  impactTimeframe : Option String
  contributors : Option (List String)
  cmsId : String
  status : String
  dateCreated : String
  slug : String
  story : String
  bcRatioReport : String
  villagesImpacted : String
  peopleImpacted : String
  verifiedBy : String
  dateUpdated : String
  byline : String
  totalCost : Option Nat
  fundedSoFar : Int
deriving DecidableEq, Repr

/-- Errors thrown by the module. `wrapped ctx e` models a
`catch (error) \x7b throw new Error(ctx + error) \x7d` site with message
prefix `ctx`; `remote msg` is an error thrown by an external collaborator
(indexer / IPFS storage / CMS / funding lookup); `cmsNotFound name` is
the content-mismatch throw of line 55; `typeError` is the JavaScript
`TypeError` raised by `metadata.properties?.[0].value` when `properties`
is present but empty; `notFound key` is a lookup miss;
`config` is the missing-owner-address throw of line 24. -/
inductive JsError where
  | config : JsError
  | remote : String → JsError
  | cmsNotFound : String → JsError
  | typeError : JsError
  | notFound : String → JsError
  | wrapped : String → JsError → JsError
deriving DecidableEq, Repr

deriving instance DecidableEq for Except

/-- Strips the `wrapped` layers off an error, exposing the originating
throw site. -/
def JsError.rootCause : JsError → JsError
  | .wrapped _ e => e.rootCause
  | e => e

/-- Number of calls made to each remote collaborator. -/
structure Calls where
  claims : Nat
  metadata : Nat
  cms : Nat
  funding : Nat
deriving DecidableEq, Repr

def Calls.zero : Calls := ⟨0, 0, 0, 0⟩

def Calls.add (a b : Calls) : Calls :=
  ⟨a.claims + b.claims, a.metadata + b.metadata, a.cms + b.cms,
   a.funding + b.funding⟩

/-- The fixed environment of one program run: the `HC_OWNER_ADDRESS`
environment variable and the four remote collaborators. Each collaborator
is a pure function, i.e. repeated calls in the same run return the same
value; `Except.error msg` models the collaborator throwing an error whose
string form is `msg`. -/
structure World where
  hcOwnerAddress : Option String
  claimsByOwner : String → Except String (List Claim)
  getMetadata : String → Except String HypercertMetadata
  getCMSReports : Except String (List CMSReport)
  getFundedAmountByHCId : String → Except String Int

/-- Embeds `getHypercertClaims` (lines 175-197): calls the indexer and
wraps any failure with the `[Hypercerts] Failed to fetch claims owned by`
message. -/
def getHypercertClaims (w : World) (ownerAddress : String) :
    Except JsError (List Claim) :=
  match w.claimsByOwner ownerAddress with
  | .ok cs => .ok cs
  | .error e =>
      .error (.wrapped
        ("[Hypercerts] Failed to fetch claims owned by " ++ ownerAddress)
        (.remote e))

/-- Embeds `getHypercertMetadata` (lines 206-225): resolves a claim URI
and wraps any failure with the `[Hypercerts] Failed to fetch metadata of`
message. -/
def getHypercertMetadata (w : World) (claimUri : String) :
    Except JsError HypercertMetadata :=
  match w.getMetadata claimUri with
  | .ok m => .ok m
  | .error e =>
      .error (.wrapped
        ("[Hypercerts] Failed to fetch metadata of " ++ claimUri)
        (.remote e))

/-- Embeds the state extraction `metadata.properties?.[0].value`
(line 67): the optional chaining guards only the absence of `properties`;
on a present-but-empty array, `properties[0]` is `undefined` and the
`.value` access throws a `TypeError`. -/
def extractState : Option (List MetadataProperty) →
    Except JsError (Option String)
  | none => .ok none
  | some [] => .error .typeError
  | some (p :: _) => .ok (some p.value)

/-- Embeds `metadata.hypercert?.work_scope.value?.[0]` (line 68):
`undefined` at any step yields `undefined`, and indexing an empty array
yields `undefined` with nothing further accessed. -/
def extractCategory (h : Option HypercertData) : Option String :=
  h.bind fun hc => (hc.work_scope.value).bind List.head?

/-- Embeds `metadata.hypercert?.contributors.value?.map((name) => name)`
(lines 72-74); the map is the identity. -/
def extractContributors (h : Option HypercertData) : Option (List String) :=
  h.bind fun hc => hc.contributors.value

/-- Accumulates decimal digits; any non-digit character yields `none`. -/
def digitsAux (acc : Nat) : List Char → Option Nat
  | [] => some acc
  | c :: cs =>
    if c.isDigit then digitsAux (acc * 10 + (c.toNat - 48)) cs else none

/-- Models JavaScript `Number(...)` on the CMS `total_cost` string for
nonnegative decimal integer strings; `none` models `NaN`. -/
def jsNumber (s : String) : Option Nat :=
  match s.data with
  | [] => none
  | cs => digitsAux 0 cs

/-- The object literal of lines 60-90, given the already-extracted
state. -/
def mkReport (claim : Claim) (metadata : HypercertMetadata)
    (cmsReport : CMSReport) (st : Option String) (funded : Int) : Report :=
  { hypercertId := claim.id
    title := metadata.name
    summary := metadata.description
    image := metadata.image
    originalReportUrl := metadata.extUrl
    state := st
    category := extractCategory metadata.hypercert
    workTimeframe :=
      metadata.hypercert.bind fun hc => hc.work_timeframe.display_value
    impactScope :=
      metadata.hypercert.bind fun hc => hc.impact_scope.display_value
    impactTimeframe :=
      metadata.hypercert.bind fun hc => hc.impact_timeframe.display_value
    contributors := extractContributors metadata.hypercert
    cmsId := cmsReport.id
    status := cmsReport.status
    dateCreated := cmsReport.date_created
    slug := cmsReport.slug
    story := cmsReport.story
    bcRatioReport := cmsReport.bcRatioVal
    villagesImpacted := cmsReport.villages_impacted
    peopleImpacted := cmsReport.people_impacted
    verifiedBy := cmsReport.verified_by
    dateUpdated := cmsReport.date_updated
    byline := cmsReport.byline
    totalCost := jsNumber cmsReport.total_cost
    fundedSoFar := funded }

/-- The per-claim async builder (the body of `claims.map` on
lines 44-91): resolve metadata, fetch the CMS list, locate the editorial
record whose `title` equals the metadata `name` (throwing the
content-mismatch error if absent), extract the state (which may throw a
`TypeError`), resolve the funded amount, and assemble the `Report`.
Returns the outcome together with the collaborator calls it made. -/
def buildReport (w : World) (claim : Claim) :
    Except JsError Report × Calls :=
  match getHypercertMetadata w claim.uri with
  | .error e => (.error e, ⟨0, 1, 0, 0⟩)
  | .ok metadata =>
    match w.getCMSReports with
    | .error e => (.error (.remote e), ⟨0, 1, 1, 0⟩)
    | .ok fromCMS =>
      match fromCMS.find? (fun cmsReport => cmsReport.title == metadata.name) with
      | none =>
          (.error (.cmsNotFound metadata.name), ⟨0, 1, 1, 0⟩)
      | some cmsReport =>
        match extractState metadata.properties with
        | .error e => (.error e, ⟨0, 1, 1, 0⟩)
        | .ok st =>
          match w.getFundedAmountByHCId claim.id with
          | .error e => (.error (.remote e), ⟨0, 1, 1, 1⟩)
          | .ok funded =>
              (.ok (mkReport claim metadata cmsReport st funded),
               ⟨0, 1, 1, 1⟩)

/-- Embeds `Promise.all(claims.map ...)` (lines 43-92), sequentially left
to right: the surfaced error is the leftmost failing claim's, and every
claim's collaborator calls are counted regardless of failure elsewhere
(`Promise.all` does not cancel the remaining promises). On success the
report list is positional: the report at index `i` is built from the
claim at index `i`. -/
def buildAll (w : World) : List Claim → Except JsError (List Report) × Calls
  | [] => (.ok [], Calls.zero)
  | c :: rest =>
    let rk := buildReport w c
    let rsk := buildAll w rest
    (match rk.1, rsk.1 with
     | .ok rep, .ok reps => .ok (rep :: reps)
     | .error e, _ => .error e
     | .ok _, .error e => .error e,
     Calls.add rk.2 rsk.2)

/-- Outcome of an operation on the module: the returned value or thrown
error, the cache (the module-level `reports` variable) after the call,
and the remote collaborator calls made. -/
structure Outcome (α : Type) where
  result : Except JsError α
  cache : Option (List Report)
  calls : Calls
deriving DecidableEq

/-- Embeds `fetchReports` (lines 22-101). The missing-configuration check
precedes the `try`, so its error is not wrapped. Inside the `try`: a
populated cache is returned as-is with no remote call; otherwise the
claims are fetched, the per-claim builders run, and the assignment
`reports = await Promise.all(...)` populates the cache only when every
builder succeeded. Any error thrown inside the `try` is wrapped with the
`[server] Failed to fetch reports` message. -/
def fetchReports (w : World) (cache : Option (List Report)) :
    Outcome (List Report) :=
  match w.hcOwnerAddress with
  | none => { result := .error .config, cache := cache, calls := Calls.zero }
  | some ownerAddress =>
    match cache with
    | some rs =>
        { result := .ok rs, cache := some rs, calls := Calls.zero }
    | none =>
      match getHypercertClaims w ownerAddress with
      | .error e =>
          { result := .error (.wrapped "[server] Failed to fetch reports" e)
            cache := none
            calls := ⟨1, 0, 0, 0⟩ }
      | .ok claims =>
        let rk := buildAll w claims
        match rk.1 with
        | .error e =>
            { result := .error (.wrapped "[server] Failed to fetch reports" e)
              cache := none
              calls := Calls.add ⟨1, 0, 0, 0⟩ rk.2 }
        | .ok reps =>
            { result := .ok reps
              cache := some reps
              calls := Calls.add ⟨1, 0, 0, 0⟩ rk.2 }

/-- Embeds `fetchReportBySlug` (lines 109-123): calls `fetchReports`,
linear-scans for the slug, throws a not-found error on a miss; the
`catch` wraps every error (including its own not-found throw) with the
`[server] Failed to get report by slug` message. -/
def fetchReportBySlug (w : World) (cache : Option (List Report))
    (slug : String) : Outcome Report :=
  let o := fetchReports w cache
  let ctx := "[server] Failed to get report by slug " ++ slug
  match o.result with
  | .error e =>
      { result := .error (.wrapped ctx e), cache := o.cache, calls := o.calls }
  | .ok rs =>
    match rs.find? (fun report => report.slug == slug) with
    | some foundReport =>
        { result := .ok foundReport, cache := o.cache, calls := o.calls }
    | none =>
        { result := .error (.wrapped ctx (.notFound slug))
          cache := o.cache
          calls := o.calls }

/-- Embeds `getReports` (lines 148-153): synchronous read of the cache,
empty list when unpopulated. It takes no `World`, so by construction it
can invoke no remote collaborator. -/
def getReports (cache : Option (List Report)) : List Report :=
  match cache with
  | some rs => rs
  | none => []

/-- Updates the first report whose `hypercertId` matches, adding `amount`
to its `fundedSoFar` in place (`Array.prototype.find` returns the first
match, and the mutation affects that element). -/
def addFunding (id : String) (amount : Int) : List Report → List Report
  | [] => []
  | r :: rest =>
    if r.hypercertId == id then
      { r with fundedSoFar := r.fundedSoFar + amount } :: rest
    else
      r :: addFunding id amount rest

/-- Embeds `updateFundedAmount` (lines 228-243): under the mutex, reads
the cache via `getReports`, finds the report by `hypercertId` and adds
`amount` to its `fundedSoFar`; on a miss (or an unpopulated cache) it is
a silent no-op. It never throws. The embedding is sequential, so the
mutex has no observable effect. -/
def updateFundedAmount (cache : Option (List Report)) (hypercertId : String)
    (amount : Int) : Option (List Report) :=
  match cache with
  | none => none
  | some rs => some (addFunding hypercertId amount rs)

/-! Concrete sample data, used to evaluate the theorems on closed
inputs. -/

def sampleClaim : Claim := { id := "claim-1", uri := "ipfs://meta-1" }

def sampleMetadata : HypercertMetadata :=
  { name := "Foo"
    description := "a report"
    image := "img"
    extUrl := some "https://example.org/foo"
    properties := some [{ value := "Sudan" }]
    hypercert := none }

def sampleCMS : CMSReport :=
  { id := "cms-1"
    title := "Foo"
    status := "published"
    date_created := "2024-01-01"
    slug := "foo-1"
    story := "story"
    bcRatioVal := "2.5"
    villages_impacted := "3"
    people_impacted := "400"
    verified_by := "auditor"
    date_updated := "2024-01-02"
    byline := "author"
    total_cost := "100" }

/-- A run in which every collaborator succeeds and the single claim's
metadata name matches the single CMS record's title. -/
def sampleWorld : World :=
  { hcOwnerAddress := some "0xowner"
    claimsByOwner := fun _ => .ok [sampleClaim]
    getMetadata := fun _ => .ok sampleMetadata
    getCMSReports := .ok [sampleCMS]
    getFundedAmountByHCId := fun _ => .ok 50 }

/-- The report `sampleWorld`'s population produces. -/
def sampleReport : Report :=
  mkReport sampleClaim sampleMetadata sampleCMS (some "Sudan") 50

/-- A run with the owner-address environment variable unset. -/
def worldNoConfig : World :=
  { sampleWorld with hcOwnerAddress := none }

/-- A run whose CMS list has no record matching the claim's metadata
name. -/
def worldMismatch : World :=
  { sampleWorld with getCMSReports := .ok [] }

/-- A run whose claim's metadata carries a present-but-empty `properties`
array. -/
def worldEmptyProps : World :=
  { sampleWorld with
      getMetadata := fun _ =>
        .ok { sampleMetadata with properties := some [] } }

/-! Helper lemmas. -/

/-- If no report in the list carries the identifier, `addFunding` is the
identity. -/
theorem addFunding_of_not_mem (id : String) (amount : Int) :
    ∀ rs : List Report, (∀ r ∈ rs, r.hypercertId ≠ id) →
      addFunding id amount rs = rs := by
  intro rs
  induction rs with
  | nil => intro _; rfl
  | cons a rest ih =>
    intro h
    have ha : (a.hypercertId == id) = false := by
      simp [h a (List.mem_cons_self a rest)]
    simp [addFunding, ha, ih fun r hr => h r (List.mem_cons_of_mem a hr)]

/-- `addFunding` updates exactly the report `find?` locates: after the
update, `find?` returns that report with `amount` added to its
`fundedSoFar`. -/
theorem addFunding_find (id : String) (amount : Int) :
    ∀ (rs : List Report) (r : Report),
      rs.find? (fun x => x.hypercertId == id) = some r →
      (addFunding id amount rs).find? (fun x => x.hypercertId == id) =
        some { r with fundedSoFar := r.fundedSoFar + amount } := by
  intro rs
  induction rs with
  | nil => intro r h; simp [List.find?] at h
  | cons a rest ih =>
    intro r h
    by_cases hpa : (a.hypercertId == id) = true
    · rw [List.find?_cons_of_pos (p := fun x => x.hypercertId == id) rest hpa]
        at h
      injection h with h
      subst h
      simp only [addFunding]
      rw [if_pos hpa]
      exact List.find?_cons_of_pos (p := fun x => x.hypercertId == id)
        (a := { a with fundedSoFar := a.fundedSoFar + amount }) rest hpa
    · rw [List.find?_cons_of_neg (p := fun x => x.hypercertId == id) rest hpa]
        at h
      simp only [addFunding]
      rw [if_neg hpa]
      rw [List.find?_cons_of_neg (p := fun x => x.hypercertId == id)
        (addFunding id amount rest) hpa]
      exact ih r h

/-! Claim theorems. -/

/-- C6: when the owner-address environment variable is absent,
`fetchReports` fails immediately with the configuration error, invokes
no remote collaborator, and leaves the cache untouched. -/
theorem fetchReports_missing_config (w : World) (cache : Option (List Report))
    (h : w.hcOwnerAddress = none) :
    fetchReports w cache =
      { result := .error .config, cache := cache, calls := Calls.zero } := by
  simp [fetchReports, h]

theorem fetchReports_missing_config_witness :
    worldNoConfig.hcOwnerAddress = none ∧
    fetchReports worldNoConfig none =
      { result := .error .config, cache := none, calls := Calls.zero } :=
  ⟨rfl, fetchReports_missing_config worldNoConfig none rfl⟩

/-- C9: `getReports` on an unpopulated cache returns the empty list, and
on a populated cache returns the cached contents; it takes no `World`,
so it can trigger no remote fetch. -/
theorem getReports_spec :
    getReports none = ([] : List Report) ∧
    ∀ rs : List Report, getReports (some rs) = rs :=
  ⟨rfl, fun _ => rfl⟩

/-- C2: with the owner address configured and the cache populated,
`fetchReports` returns the cached list unchanged with zero remote
collaborator calls, and a second call on the resulting cache returns the
same list again. -/
theorem fetchReports_cached (w : World) (rs : List Report) (addr : String)
    (h : w.hcOwnerAddress = some addr) :
    fetchReports w (some rs) =
      { result := .ok rs, cache := some rs, calls := Calls.zero } ∧
    fetchReports w (fetchReports w (some rs)).cache =
      { result := .ok rs, cache := some rs, calls := Calls.zero } := by
  have h1 : fetchReports w (some rs) =
      { result := .ok rs, cache := some rs, calls := Calls.zero } := by
    simp [fetchReports, h]
  exact ⟨h1, by rw [h1]; exact h1⟩

theorem fetchReports_cached_witness :
    sampleWorld.hcOwnerAddress = some "0xowner" ∧
    (fetchReports sampleWorld (some [sampleReport]) =
      { result := .ok [sampleReport], cache := some [sampleReport],
        calls := Calls.zero } ∧
    fetchReports sampleWorld (fetchReports sampleWorld (some [sampleReport])).cache =
      { result := .ok [sampleReport], cache := some [sampleReport],
        calls := Calls.zero }) :=
  ⟨rfl, fetchReports_cached sampleWorld [sampleReport] "0xowner" rfl⟩

/-- C7: when no cached report carries the requested identifier,
`updateFundedAmount` (a total function: it never throws) leaves the
cache exactly as it was. -/
theorem updateFundedAmount_missing_id (cache : Option (List Report))
    (id : String) (amount : Int)
    (h : ∀ r ∈ getReports cache, r.hypercertId ≠ id) :
    updateFundedAmount cache id amount = cache := by
  cases cache with
  | none => rfl
  | some rs =>
    simp only [updateFundedAmount]
    rw [addFunding_of_not_mem id amount rs (fun r hr => h r hr)]

theorem updateFundedAmount_missing_id_witness :
    (∀ r ∈ getReports (some [sampleReport]), r.hypercertId ≠ "unknown-id") ∧
    updateFundedAmount (some [sampleReport]) "unknown-id" 10 =
      some [sampleReport] :=
  ⟨by decide, updateFundedAmount_missing_id (some [sampleReport])
    "unknown-id" 10 (by decide)⟩

/-- C5: when the cache holds a report found under the identifier,
`updateFundedAmount` adds `amount` to that report's `fundedSoFar`:
looking the report up afterwards yields the same report with the summed
amount. -/
theorem updateFundedAmount_adds (rs : List Report) (id : String)
    (amount : Int) (r : Report)
    (hfind : rs.find? (fun x => x.hypercertId == id) = some r) :
    ∃ rs', updateFundedAmount (some rs) id amount = some rs' ∧
      rs'.find? (fun x => x.hypercertId == id) =
        some { r with fundedSoFar := r.fundedSoFar + amount } :=
  ⟨addFunding id amount rs, rfl, addFunding_find id amount rs r hfind⟩

theorem updateFundedAmount_adds_witness :
    [sampleReport].find? (fun x => x.hypercertId == "claim-1") =
      some sampleReport ∧
    sampleReport.fundedSoFar = 50 ∧
    ∃ rs', updateFundedAmount (some [sampleReport]) "claim-1" 25 = some rs' ∧
      rs'.find? (fun x => x.hypercertId == "claim-1") =
        some { sampleReport with fundedSoFar := 75 } :=
  ⟨by decide, by decide,
   updateFundedAmount_adds [sampleReport] "claim-1" 25 sampleReport (by decide)⟩

/-- C8: after a successful population, looking up a slug no cached report
carries fails with the wrapped not-found error — an error whose root
cause is the `notFound` constructor, distinct from the configuration and
remote-fetch constructors — and the cache keeps its populated value. -/
theorem fetchReportBySlug_not_found (w : World) (rs : List Report)
    (addr slug : String)
    (hw : w.hcOwnerAddress = some addr)
    (h : ∀ r ∈ rs, r.slug ≠ slug) :
    fetchReportBySlug w (some rs) slug =
      { result := .error (.wrapped
          ("[server] Failed to get report by slug " ++ slug)
          (.notFound slug))
        cache := some rs
        calls := Calls.zero } ∧
    JsError.rootCause (.wrapped
      ("[server] Failed to get report by slug " ++ slug)
      (.notFound slug)) = .notFound slug ∧
    JsError.notFound slug ≠ .config ∧
    ∀ msg, JsError.notFound slug ≠ .remote msg := by
  have hfind : rs.find? (fun report => report.slug == slug) = none := by
    rw [List.find?_eq_none]
    intro x hx
    simp [h x hx]
  refine ⟨?_, rfl, by simp, by simp⟩
  simp [fetchReportBySlug, fetchReports, hw, hfind]

theorem fetchReportBySlug_not_found_witness :
    (∀ r ∈ [sampleReport], r.slug ≠ "nonexistent") ∧
    fetchReportBySlug sampleWorld (some [sampleReport]) "nonexistent" =
      { result := .error (.wrapped
          "[server] Failed to get report by slug nonexistent"
          (.notFound "nonexistent"))
        cache := some [sampleReport]
        calls := Calls.zero } :=
  ⟨by decide,
   (fetchReportBySlug_not_found sampleWorld [sampleReport] "0xowner"
      "nonexistent" rfl (by decide)).1⟩

/-- On success, `buildAll` produces one report per claim, positionally:
the report at index `i` is the one `buildReport` yields for the claim at
index `i`. -/
theorem buildAll_ok_spec (w : World) :
    ∀ (cls : List Claim) (reps : List Report),
      (buildAll w cls).1 = .ok reps →
      reps.length = cls.length ∧
      ∀ (i : Nat) (hc : i < cls.length) (hr : i < reps.length),
        (buildReport w (cls.get ⟨i, hc⟩)).1 = .ok (reps.get ⟨i, hr⟩) := by
  intro cls
  induction cls with
  | nil =>
    intro reps h
    simp [buildAll] at h
    subst h
    exact ⟨rfl, fun i hc _ => absurd hc (by simp)⟩
  | cons c rest ih =>
    intro reps h
    simp only [buildAll] at h
    cases hb : (buildReport w c).1 with
    | error e => rw [hb] at h; simp at h
    | ok rep =>
      cases hall : (buildAll w rest).1 with
      | error e => rw [hb, hall] at h; simp at h
      | ok reps' =>
        rw [hb, hall] at h
        simp only [Except.ok.injEq] at h
        subst h
        obtain ⟨hlen, hidx⟩ := ih reps' hall
        refine ⟨by simp [hlen], ?_⟩
        intro i hc hr
        cases i with
        | zero => exact hb
        | succ n =>
          exact hidx n (Nat.lt_of_succ_lt_succ hc) (Nat.lt_of_succ_lt_succ hr)

/-- C3: on a successful population, the resulting report list is
positionally aligned with the claims the indexer returned: same length,
and the report at index `i` is built from the claim at index `i`. -/
theorem fetchReports_order (w : World) (addr : String) (cls : List Claim)
    (reps : List Report)
    (hw : w.hcOwnerAddress = some addr)
    (hcl : w.claimsByOwner addr = .ok cls)
    (hres : (fetchReports w none).result = .ok reps) :
    reps.length = cls.length ∧
    ∀ (i : Nat) (hc : i < cls.length) (hr : i < reps.length),
      (buildReport w (cls.get ⟨i, hc⟩)).1 = .ok (reps.get ⟨i, hr⟩) := by
  have hgc : getHypercertClaims w addr = .ok cls := by
    simp [getHypercertClaims, hcl]
  simp only [fetchReports, hw, hgc] at hres
  cases hba : (buildAll w cls).1 with
  | error e => rw [hba] at hres; simp at hres
  | ok reps' =>
    rw [hba] at hres
    simp only [Except.ok.injEq] at hres
    subst hres
    exact buildAll_ok_spec w cls reps' hba

theorem fetchReports_order_witness :
    sampleWorld.hcOwnerAddress = some "0xowner" ∧
    sampleWorld.claimsByOwner "0xowner" = .ok [sampleClaim] ∧
    (fetchReports sampleWorld none).result = .ok [sampleReport] ∧
    ([sampleReport].length = [sampleClaim].length ∧
     ∀ (i : Nat) (hc : i < [sampleClaim].length)
       (hr : i < [sampleReport].length),
       (buildReport sampleWorld ([sampleClaim].get ⟨i, hc⟩)).1 =
         .ok ([sampleReport].get ⟨i, hr⟩)) :=
  ⟨rfl, rfl, by decide,
   fetchReports_order sampleWorld "0xowner" [sampleClaim] [sampleReport]
     rfl rfl (by decide)⟩

/-- A claim whose resolved metadata name matches no CMS title makes the
per-claim builder fail with the content-mismatch error. -/
theorem buildReport_mismatch (w : World) (c : Claim) (m : HypercertMetadata)
    (cms : List CMSReport)
    (hm : w.getMetadata c.uri = .ok m)
    (hcms : w.getCMSReports = .ok cms)
    (hfind : cms.find? (fun x => x.title == m.name) = none) :
    (buildReport w c).1 = .error (.cmsNotFound m.name) := by
  simp [buildReport, getHypercertMetadata, hm, hcms, hfind]

/-- If every claim either builds or fails with the content-mismatch
error, and at least one fails with it, the batch fails with a
content-mismatch error. -/
theorem buildAll_mismatch (w : World) :
    ∀ cls : List Claim,
      (∀ c ∈ cls, (∃ rep, (buildReport w c).1 = .ok rep) ∨
        ∃ n, (buildReport w c).1 = .error (.cmsNotFound n)) →
      (∃ c ∈ cls, ∃ n, (buildReport w c).1 = .error (.cmsNotFound n)) →
      ∃ n, (buildAll w cls).1 = .error (.cmsNotFound n) := by
  intro cls
  induction cls with
  | nil =>
    intro _ hex
    rcases hex with ⟨c, hc, _⟩
    exact absurd hc (List.not_mem_nil c)
  | cons a rest ih =>
    intro hall hex
    rcases hall a (List.mem_cons_self a rest) with ⟨rep, hok⟩ | ⟨n, herr⟩
    · have hex' : ∃ c ∈ rest, ∃ n,
          (buildReport w c).1 = .error (.cmsNotFound n) := by
        rcases hex with ⟨c, hc, n, herr⟩
        rcases List.mem_cons.mp hc with rfl | hmem
        · rw [hok] at herr; exact absurd herr (by simp)
        · exact ⟨c, hmem, n, herr⟩
      obtain ⟨n, hrest⟩ :=
        ih (fun c h => hall c (List.mem_cons_of_mem a h)) hex'
      refine ⟨n, ?_⟩
      simp only [buildAll]
      rw [hok, hrest]
    · refine ⟨n, ?_⟩
      simp only [buildAll]
      rw [herr]

/-- A `fetchReports` call on an unpopulated cache with the owner address
configured always invokes the claim indexer. -/
theorem fetchReports_uncached_calls_claims (w : World) (addr : String)
    (hw : w.hcOwnerAddress = some addr) :
    1 ≤ (fetchReports w none).calls.claims := by
  simp only [fetchReports, hw]
  rcases hgc : getHypercertClaims w addr with e | cls
  · simp
  · rcases hba : (buildAll w cls).1 with e | reps <;>
      simp [hba, Calls.add]

/-- C1: when some claim's resolved metadata name matches no CMS record's
title (and no other anomaly preempts it: every per-claim build either
succeeds or fails with the content-mismatch error), `fetchReports` on an
unpopulated cache fails with the wrapped content-mismatch error, the
cache stays unpopulated, and a subsequent `fetchReports` call invokes
the claim indexer again rather than returning a stored list. -/
theorem fetchReports_mismatch (w : World) (addr : String)
    (cls : List Claim) (cms : List CMSReport)
    (hw : w.hcOwnerAddress = some addr)
    (hcl : w.claimsByOwner addr = .ok cls)
    (hcms : w.getCMSReports = .ok cms)
    (hall : ∀ c ∈ cls, (∃ rep, (buildReport w c).1 = .ok rep) ∨
        ∃ n, (buildReport w c).1 = .error (.cmsNotFound n))
    (hex : ∃ c ∈ cls, ∃ m, w.getMetadata c.uri = .ok m ∧
        cms.find? (fun x => x.title == m.name) = none) :
    (∃ n, (fetchReports w none).result =
        .error (.wrapped "[server] Failed to fetch reports"
          (.cmsNotFound n))) ∧
    (fetchReports w none).cache = none ∧
    1 ≤ (fetchReports w ((fetchReports w none).cache)).calls.claims := by
  have hex' : ∃ c ∈ cls, ∃ n,
      (buildReport w c).1 = .error (.cmsNotFound n) := by
    rcases hex with ⟨c, hcmem, m, hm, hfind⟩
    exact ⟨c, hcmem, m.name, buildReport_mismatch w c m cms hm hcms hfind⟩
  obtain ⟨n, hba⟩ := buildAll_mismatch w cls hall hex'
  have hgc : getHypercertClaims w addr = .ok cls := by
    simp [getHypercertClaims, hcl]
  have hcache : (fetchReports w none).cache = none := by
    simp [fetchReports, hw, hgc, hba]
  refine ⟨⟨n, ?_⟩, hcache, ?_⟩
  · simp [fetchReports, hw, hgc, hba]
  · rw [hcache]
    exact fetchReports_uncached_calls_claims w addr hw

theorem fetchReports_mismatch_witness :
    worldMismatch.hcOwnerAddress = some "0xowner" ∧
    worldMismatch.claimsByOwner "0xowner" = .ok [sampleClaim] ∧
    worldMismatch.getCMSReports = .ok [] ∧
    ((∃ n, (fetchReports worldMismatch none).result =
        .error (.wrapped "[server] Failed to fetch reports"
          (.cmsNotFound n))) ∧
    (fetchReports worldMismatch none).cache = none ∧
    1 ≤ (fetchReports worldMismatch
      ((fetchReports worldMismatch none).cache)).calls.claims) :=
  ⟨rfl, rfl, rfl,
   fetchReports_mismatch worldMismatch "0xowner" [sampleClaim] [] rfl rfl rfl
     (fun c hc => Or.inr ⟨"Foo", by rw [List.mem_singleton.mp hc]; decide⟩)
     ⟨sampleClaim, List.mem_singleton.mpr rfl, sampleMetadata, by decide,
      by decide⟩⟩

/-- One failing per-claim build makes the whole batch fail. -/
theorem buildAll_error_of_mem (w : World) :
    ∀ cls : List Claim, ∀ c ∈ cls, (∃ e, (buildReport w c).1 = .error e) →
      ∃ e, (buildAll w cls).1 = .error e := by
  intro cls
  induction cls with
  | nil =>
    intro c hc _
    exact absurd hc (List.not_mem_nil c)
  | cons a rest ih =>
    intro c hc hce
    rcases List.mem_cons.mp hc with rfl | hmem
    · rcases hce with ⟨e, he⟩
      exact ⟨e, by simp only [buildAll]; rw [he]⟩
    · rcases hba : (buildReport w a).1 with e0 | rep
      · exact ⟨e0, by simp only [buildAll]; rw [hba]⟩
      · rcases ih c hmem hce with ⟨e, he⟩
        exact ⟨e, by simp only [buildAll]; rw [hba, he]⟩

/-- C10: a present-but-empty `properties` array makes the state
extraction throw (the optional chaining guards only the absence of the
array, not of its first entry): the extraction on `some []` is the
`TypeError`; a claim carrying such metadata makes `fetchReports` fail
with a wrapped error and leaves the cache unpopulated (whatever the
other claims do); and when the CMS match exists, the per-claim build
fails precisely with the `TypeError`. A report with an absent state is
produced only from an entirely absent `properties` field: extraction
yields `ok none` exactly on `none`. -/
theorem fetchReports_empty_properties (w : World) (addr : String)
    (cls : List Claim) (cms : List CMSReport) (c : Claim)
    (m : HypercertMetadata)
    (hw : w.hcOwnerAddress = some addr)
    (hcl : w.claimsByOwner addr = .ok cls)
    (hcms : w.getCMSReports = .ok cms)
    (hmem : c ∈ cls)
    (hm : w.getMetadata c.uri = .ok m)
    (hp : m.properties = some []) :
    extractState (some []) = .error .typeError ∧
    ((cms.find? fun x => x.title == m.name).isSome = true →
      (buildReport w c).1 = .error .typeError) ∧
    (∃ e, (fetchReports w none).result =
      .error (.wrapped "[server] Failed to fetch reports" e)) ∧
    (fetchReports w none).cache = none ∧
    ∀ props : Option (List MetadataProperty),
      extractState props = .ok none ↔ props = none := by
  have hberr : ∃ e, (buildReport w c).1 = .error e := by
    rcases hfind : cms.find? (fun x => x.title == m.name) with _ | cm
    · exact ⟨.cmsNotFound m.name,
        buildReport_mismatch w c m cms hm hcms hfind⟩
    · refine ⟨.typeError, ?_⟩
      simp [buildReport, getHypercertMetadata, hm, hcms, hfind, hp,
        extractState]
  obtain ⟨e, hball⟩ := buildAll_error_of_mem w cls c hmem hberr
  have hgc : getHypercertClaims w addr = .ok cls := by
    simp [getHypercertClaims, hcl]
  refine ⟨rfl, ?_, ⟨e, ?_⟩, ?_, ?_⟩
  · intro hsome
    rcases Option.isSome_iff_exists.mp hsome with ⟨cm, hfind⟩
    simp [buildReport, getHypercertMetadata, hm, hcms, hfind, hp,
      extractState]
  · simp [fetchReports, hw, hgc, hball]
  · simp [fetchReports, hw, hgc, hball]
  · intro props
    rcases props with _ | pl
    · simp [extractState]
    · rcases pl with _ | ⟨p, ps⟩ <;> simp [extractState]

theorem fetchReports_empty_properties_witness :
    worldEmptyProps.hcOwnerAddress = some "0xowner" ∧
    worldEmptyProps.claimsByOwner "0xowner" = .ok [sampleClaim] ∧
    worldEmptyProps.getCMSReports = .ok [sampleCMS] ∧
    sampleClaim ∈ [sampleClaim] ∧
    worldEmptyProps.getMetadata sampleClaim.uri =
      .ok { sampleMetadata with properties := some [] } ∧
    (extractState (some []) = .error .typeError ∧
     (([sampleCMS].find? fun x =>
        x.title == HypercertMetadata.name
          { sampleMetadata with properties := some [] }).isSome = true →
      (buildReport worldEmptyProps sampleClaim).1 = .error .typeError) ∧
     (∃ e, (fetchReports worldEmptyProps none).result =
       .error (.wrapped "[server] Failed to fetch reports" e)) ∧
     (fetchReports worldEmptyProps none).cache = none ∧
     ∀ props : Option (List MetadataProperty),
       extractState props = .ok none ↔ props = none) :=
  ⟨rfl, rfl, rfl, List.mem_singleton.mpr rfl, rfl,
   fetchReports_empty_properties worldEmptyProps "0xowner" [sampleClaim]
     [sampleCMS] sampleClaim { sampleMetadata with properties := some [] }
     rfl rfl rfl (List.mem_singleton.mpr rfl) rfl rfl⟩

/-- C4: for a population of a single claim whose metadata resolves to
name `Foo`, matched by the CMS record with title `Foo`, slug `foo-1` and
`total_cost` string `"100"`, a fresh `fetchReportBySlug "foo-1"` call
(which populates the cache and then looks the slug up) returns a report
whose `totalCost` is the number `100` and whose `hypercertId` is the
claim's id. -/
theorem fetchReportBySlug_merge (w : World) (addr : String) (c : Claim)
    (m : HypercertMetadata) (cms : List CMSReport) (cm : CMSReport)
    (st : Option String) (f : Int)
    (hw : w.hcOwnerAddress = some addr)
    (hcl : w.claimsByOwner addr = .ok [c])
    (hm : w.getMetadata c.uri = .ok m)
    (hname : m.name = "Foo")
    (hcms : w.getCMSReports = .ok cms)
    (hfind : cms.find? (fun x => x.title == "Foo") = some cm)
    (hslug : cm.slug = "foo-1")
    (hcost : cm.total_cost = "100")
    (hst : extractState m.properties = .ok st)
    (hf : w.getFundedAmountByHCId c.id = .ok f) :
    ∃ rep, (fetchReportBySlug w none "foo-1").result = .ok rep ∧
      rep.totalCost = some 100 ∧ rep.hypercertId = c.id := by
  have hgc : getHypercertClaims w addr = .ok [c] := by
    simp [getHypercertClaims, hcl]
  have hbr : (buildReport w c).1 = .ok (mkReport c m cm st f) := by
    simp [buildReport, getHypercertMetadata, hm, hcms, hname, hfind, hst, hf]
  have hba : (buildAll w [c]).1 = .ok [mkReport c m cm st f] := by
    simp only [buildAll]
    rw [hbr]
  have hfr1 : (fetchReports w none).result = .ok [mkReport c m cm st f] := by
    simp [fetchReports, hw, hgc, hba]
  refine ⟨mkReport c m cm st f, ?_, ?_, rfl⟩
  · have hfound : [mkReport c m cm st f].find?
        (fun report => report.slug == "foo-1") =
          some (mkReport c m cm st f) := by
      apply List.find?_cons_of_pos
      simp [mkReport, hslug]
    simp only [fetchReportBySlug]
    rw [hfr1]
    simp [hfound]
  · show (mkReport c m cm st f).totalCost = some 100
    simp only [mkReport]
    rw [hcost]
    decide

theorem fetchReportBySlug_merge_witness :
    sampleWorld.hcOwnerAddress = some "0xowner" ∧
    sampleWorld.claimsByOwner "0xowner" = .ok [sampleClaim] ∧
    sampleWorld.getMetadata sampleClaim.uri = .ok sampleMetadata ∧
    sampleMetadata.name = "Foo" ∧
    sampleWorld.getCMSReports = .ok [sampleCMS] ∧
    [sampleCMS].find? (fun x => x.title == "Foo") = some sampleCMS ∧
    sampleCMS.slug = "foo-1" ∧
    sampleCMS.total_cost = "100" ∧
    extractState sampleMetadata.properties = .ok (some "Sudan") ∧
    sampleWorld.getFundedAmountByHCId sampleClaim.id = .ok 50 ∧
    ∃ rep, (fetchReportBySlug sampleWorld none "foo-1").result = .ok rep ∧
      rep.totalCost = some 100 ∧ rep.hypercertId = sampleClaim.id :=
  ⟨rfl, rfl, rfl, rfl, rfl, by decide, rfl, rfl, rfl, rfl,
   fetchReportBySlug_merge sampleWorld "0xowner" sampleClaim sampleMetadata
     [sampleCMS] sampleCMS (some "Sudan") 50 rfl rfl rfl rfl rfl (by decide)
     rfl rfl rfl rfl⟩
